import Mathlib

/-!
Verification of the stac-viewer core logic (src/main.js).

The development shallowly embeds the three pieces of actual logic in the
repository:

* the raster time-series cursor `LayerList` (class `LayerList` in
  src/main.js): an ordered sequence of layers with a visibility flag, a
  fixed `length`, a mutable `currentRaster` index, and the operations
  `showCurrent`, `showNext`, `showPrevious`;
* the color classification engine (`createColorbar`, `getColorStops`,
  `drawColorBar`): a switch from variable names to breakpoint lists and
  colormap names, the pairing of breakpoints with sampled colors, and the
  legend swatch list;
* the asset grouping (`getAssetsFromItem`, `createVariableSelector`):
  grouping the item's assets by their `key` field, preserving the order of
  appearance.

JavaScript layers are modelled by their only mutated attribute, the
visibility `Bool`.  JavaScript numbers holding integer values are modelled
by `Int` (JS `%` on integers is `Int.tmod`: the remainder takes the sign of
the dividend); breakpoint values are modelled by `Rat`.  Maps with string
keys are modelled by association lists in insertion order, matching the
iteration order of `for ... in` over JS objects with string keys.
-/

namespace StacViewer

/-! ## Color classification engine -/

/-- Modelled from the spec: the external `colormap` library (an external
collaborator, not part of this repository) is specified to "generate exactly
`N` evenly-sampled colors from the named ramp, where `N = breakpoints.length`,
with fixed alpha".  A sampled color is represented abstractly by the ramp
name, its sample position, the total number of samples, and the alpha channel
carrying the requested alpha. -/
structure RGBA where
  ramp : String
  sample : Nat
  nshades : Nat
  alpha : Rat
deriving DecidableEq

/-- Modelled from the spec: the `colormap` call in `getColorStops`
(src/main.js line 296), returning `nshades` evenly-sampled colors of the
named ramp, each carrying the requested alpha. -/
def colormap (cmap : String) (nshades : Nat) (alpha : Rat) : List RGBA :=
  (List.range nshades).map (fun i => RGBA.mk cmap i nshades alpha)

/-- Result of the `switch` statement in `createColorbar` (src/main.js lines
207-232): the breakpoint list `levels`, the colormap name `cmap` and the
legend label. -/
structure VarStyle where
  levels : List Rat
  cmap : String
  label : String
deriving DecidableEq

/-- The `switch(variable)` of `createColorbar` (src/main.js lines 212-232).
JS `switch` with `case`/`break` on string literals is an equality chain. -/
def createColorbar (variable_ : String) : VarStyle :=
  if variable_ = "tephra_col_mass" then
    VarStyle.mk [0.1, 2, 3, 4, 5, 6, 7, 8] "RdBu" "Tephra column mass [g/m<sup>2</sup>]"
  else if variable_ = "SO2_col_mass" then
    VarStyle.mk [1, 5, 10, 15, 20, 25, 30, 35, 40] "RdBu" "SO2 column mass [DU]"
  else if variable_ = "tephra_cloud_top" then
    VarStyle.mk [4000, 4500, 5000, 5500, 6000, 6500, 7000, 7500, 8000, 8500, 9000]
      "viridis" "Tephra cloud top height [m]"
  else
    VarStyle.mk [1, 2, 3, 4, 5, 6, 7, 8, 9, 10] "viridis" "Undefined"

/-- The function `getColorStops(cmap, levels)` (src/main.js lines 293-307).
The source fills a flat array of length `2 * steps` with `stops[2i] =
levels[i]` and `stops[2i+1] = colors[i]`; the flat array of alternating
value/color entries is modelled as the list of its `(value, color)` pairs.
The `alpha: 0.6` option of the `colormap` call is the literal on line 300. -/
def getColorStops (cmap : String) (levels : List Rat) : List (Rat × RGBA) :=
  let steps := levels.length
  let colors := colormap cmap steps (0.6 : Rat)
  (List.range steps).map (fun i =>
    (levels.getD i 0, colors.getD i (RGBA.mk cmap i steps (0.6 : Rat))))

/-- One legend swatch drawn by `drawColorBar` (src/main.js lines 269-285):
its numeric label `value` (`stops[i*2]`), the color tuple `fill`
(`stops[i*2+1]`), and `fillAlpha`, the fourth argument of the
`rgba(color[0], color[1], color[2], color[3])` fill style, which the source
takes from the color tuple itself. -/
structure Swatch where
  value : Rat
  fill : RGBA
  fillAlpha : Rat
deriving DecidableEq

/-- The loop of `drawColorBar` (src/main.js lines 269-285), abstracting the
canvas geometry: for each stop pair it emits a swatch whose fill style alpha
is `color[3]`, the alpha of the stop's own color tuple. -/
def drawColorBar (stops : List (Rat × RGBA)) : List Swatch :=
  stops.map (fun p => Swatch.mk p.1 p.2 p.2.alpha)

/-! ## Asset grouping -/

/-- A STAC asset as used by the viewer: `href` and the optional variable
identifier `key` (absent `key` is `assets[key].key === undefined`). -/
structure Asset where
  href : String
  key : Option String
deriving DecidableEq

/-- The body of the grouping loop (src/main.js lines 138-141): push the asset
onto the group of its variable, creating the group at the end on first use.
This matches JS object semantics: a new key is appended in insertion order,
an existing key's array is extended in place. -/
def addToGroup : List (String × List Asset) → String → Asset → List (String × List Asset)
  | [], v, a => [(v, [a])]
  | (w, l) :: rest, v, a =>
    if w = v then (w, l ++ [a]) :: rest
    else (w, l) :: addToGroup rest v a

/-- One iteration of the `for (const key in assets)` loop of
`getAssetsFromItem` (src/main.js lines 135-143): assets whose `key` field is
`undefined` are skipped, the others are grouped under their `key`. -/
def groupStep (groups : List (String × List Asset)) (p : String × Asset) :
    List (String × List Asset) :=
  match p.2.key with
  | some v => addToGroup groups v p.2
  | none => groups

/-- The function `getAssetsFromItem(item)` (src/main.js lines 131-145),
taking the item's asset map as an association list in insertion order. -/
def getAssetsFromItem (assets : List (String × Asset)) : List (String × List Asset) :=
  assets.foldl groupStep []

/-- The option list built by `createVariableSelector` (src/main.js lines
147-155): one option per key of the grouped-asset object, in insertion
order. -/
def createVariableSelector (groupedAssets : List (String × List Asset)) : List String :=
  groupedAssets.map (fun p => p.1)

/-- Group lookup `groupedAssets[variable]`, returning `[]` for a missing
key (used to state which assets each group holds). -/
def lookupGroup : List (String × List Asset) → String → List Asset
  | [], _ => []
  | (w, l) :: rest, v => if w = v then l else lookupGroup rest v

/-! ## Raster time-series cursor -/

/-- The class `LayerList` (src/main.js lines 27-61).  A contained layer is
modelled by its visibility flag.  `length` is the private `#length`, fixed by
the constructor; `currentRaster` is the JS number index, modelled by `Int`
since JS subtraction can leave the `Nat` range. -/
structure LayerList where
  layers : List Bool
  urls : List String
  length : Nat
  currentRaster : Int
deriving DecidableEq

/-- The method `showCurrent` (src/main.js lines 43-50), restricted to its
state effect: every layer `i` gets visibility `i === this.currentRaster`.
The asynchronous metadata fetch it triggers is display-only and out of
scope. -/
def LayerList.showCurrent (s : LayerList) : LayerList :=
  { s with layers :=
      (List.range s.layers.length).map (fun (i : Nat) => decide ((i : Int) = s.currentRaster)) }

/-- The `LayerList` constructor (src/main.js lines 29-37): `#length` is the
number of layers supplied, `currentRaster` starts at `0`, and `showCurrent()`
runs before the constructor returns. -/
def LayerList.new (layers : List Bool) (urls : List String) : LayerList :=
  LayerList.showCurrent
    { layers := layers, urls := urls, length := layers.length, currentRaster := 0 }

/-- The method `showNext` (src/main.js lines 52-55):
`currentRaster = (currentRaster + 1) % length` (JS `%` = `Int.tmod`), then
`showCurrent()`. -/
def LayerList.showNext (s : LayerList) : LayerList :=
  LayerList.showCurrent
    { s with currentRaster := Int.tmod (s.currentRaster + 1) (s.length : Int) }

/-- The method `showPrevious` (src/main.js lines 57-60):
`currentRaster = (currentRaster - 1 + length) % length`, then
`showCurrent()`. -/
def LayerList.showPrevious (s : LayerList) : LayerList :=
  LayerList.showCurrent
    { s with currentRaster := Int.tmod (s.currentRaster - 1 + (s.length : Int)) (s.length : Int) }

/-- A user interaction on the cursor: a click on the "next" or "previous"
control (src/main.js lines 310-316). -/
inductive CursorOp where
  | next
  | prev
deriving DecidableEq

/-- Dispatch of one interaction to the corresponding `LayerList` method. -/
def applyOp (s : LayerList) : CursorOp → LayerList
  | CursorOp.next => s.showNext
  | CursorOp.prev => s.showPrevious

/-- A finite sequence of next/previous interactions, applied in order. -/
def applyOps (s : LayerList) : List CursorOp → LayerList
  | [] => s
  | o :: rest => applyOps (applyOp s o) rest

/-- The cursor state reached from a freshly constructed `LayerList` after a
sequence of interactions. -/
def runCursor (layers : List Bool) (urls : List String) (ops : List CursorOp) : LayerList :=
  applyOps (LayerList.new layers urls) ops

/-- Visibility of layer `i` (out-of-range indices read as invisible). -/
def LayerList.visibleAt (s : LayerList) (i : Nat) : Bool :=
  s.layers.getD i false

/-- The index is a genuine position: `0 ≤ currentRaster < length`. -/
def InRange (s : LayerList) : Prop :=
  0 ≤ s.currentRaster ∧ s.currentRaster < (s.length : Int)

/-- The cursor invariant: the stored `length` matches the layer count, the
index is in range, and the visibility pattern is exactly "layer `i` is
visible iff `i = currentRaster`". -/
def Inv (s : LayerList) : Prop :=
  s.layers.length = s.length ∧ InRange s ∧
  s.layers = (List.range s.layers.length).map (fun (i : Nat) => decide ((i : Int) = s.currentRaster))

/-- A small concrete asset map used to instantiate the grouping theorem. -/
def sampleAssets : List (String × Asset) :=
  [("a1", Asset.mk "u1" (some "ash")),
   ("a2", Asset.mk "u2" none),
   ("a3", Asset.mk "u3" (some "ash")),
   ("a4", Asset.mk "u4" (some "so2"))]

/-! ## Classification table theorems -/

/-- C9: classification of `"tephra_col_mass"` yields exactly the breakpoints
`[0.1, 2, 3, 4, 5, 6, 7, 8]` and the colormap `"RdBu"`. -/
theorem tephra_col_mass_table :
    (createColorbar "tephra_col_mass").levels = [0.1, 2, 3, 4, 5, 6, 7, 8] ∧
    (createColorbar "tephra_col_mass").cmap = "RdBu" := by
  constructor <;> simp [createColorbar]

/-- C10: classification of `"SO2_col_mass"` yields the breakpoints
`[1, 5, 10, 15, 20, 25, 30, 35, 40]` with colormap `"RdBu"`, and
classification of `"tephra_cloud_top"` yields the breakpoints
`[4000, 4500, 5000, 5500, 6000, 6500, 7000, 7500, 8000, 8500, 9000]` with
colormap `"viridis"`. -/
theorem so2_and_cloud_top_tables :
    (createColorbar "SO2_col_mass").levels = [1, 5, 10, 15, 20, 25, 30, 35, 40] ∧
    (createColorbar "SO2_col_mass").cmap = "RdBu" ∧
    (createColorbar "tephra_cloud_top").levels
      = [4000, 4500, 5000, 5500, 6000, 6500, 7000, 7500, 8000, 8500, 9000] ∧
    (createColorbar "tephra_cloud_top").cmap = "viridis" := by
  refine ⟨?_, ?_, ?_, ?_⟩ <;> simp [createColorbar]

/-- C6: classification is total, and every variable name other than the three
recognized ones gets the documented default style: breakpoints
`[1, 2, 3, 4, 5, 6, 7, 8, 9, 10]`, colormap `"viridis"`, label
`"Undefined"`. -/
theorem default_classification (v : String)
    (h1 : v ≠ "tephra_col_mass") (h2 : v ≠ "SO2_col_mass")
    (h3 : v ≠ "tephra_cloud_top") :
    createColorbar v
      = VarStyle.mk [1, 2, 3, 4, 5, 6, 7, 8, 9, 10] "viridis" "Undefined" := by
  simp [createColorbar, h1, h2, h3]

/-- Witness for C6 at the spec's own example `"xyz"`. -/
theorem default_classification_witness :
    ("xyz" : String) ≠ "tephra_col_mass" ∧ ("xyz" : String) ≠ "SO2_col_mass" ∧
    ("xyz" : String) ≠ "tephra_cloud_top" ∧
    createColorbar "xyz"
      = VarStyle.mk [1, 2, 3, 4, 5, 6, 7, 8, 9, 10] "viridis" "Undefined" :=
  ⟨by decide, by decide, by decide,
   default_classification "xyz" (by decide) (by decide) (by decide)⟩

/-! ## Cursor lemmas -/

theorem length_showCurrent (s : LayerList) : s.showCurrent.length = s.length := rfl

theorem currentRaster_showCurrent (s : LayerList) :
    s.showCurrent.currentRaster = s.currentRaster := rfl

theorem layers_length_showCurrent (s : LayerList) :
    s.showCurrent.layers.length = s.layers.length := by
  simp only [LayerList.showCurrent, List.length_map, List.length_range]

theorem length_showNext (s : LayerList) : s.showNext.length = s.length := rfl

theorem length_showPrevious (s : LayerList) : s.showPrevious.length = s.length := rfl

theorem length_applyOp (s : LayerList) (o : CursorOp) : (applyOp s o).length = s.length := by
  cases o <;> rfl

theorem length_applyOps (ops : List CursorOp) (s : LayerList) :
    (applyOps s ops).length = s.length := by
  induction ops generalizing s with
  | nil => rfl
  | cons o rest ih => rw [applyOps, ih, length_applyOp]

theorem InRange.length_pos {s : LayerList} (h : InRange s) : 0 < (s.length : Int) :=
  lt_of_le_of_lt h.1 h.2

theorem emod_add_cancel (a b n : Int) : (a % n + b) % n = (a + b) % n := by
  conv_rhs => rw [Int.add_emod]
  rw [Int.add_emod (a % n) b, Int.emod_emod_of_dvd a (dvd_refl n)]

theorem add_len_emod (a n : Int) : (a + n) % n = a % n := by
  have h := Int.add_mul_emod_self_left a n 1
  rw [mul_one] at h
  exact h

theorem currentRaster_showNext (s : LayerList) (h : InRange s) :
    s.showNext.currentRaster = (s.currentRaster + 1) % (s.length : Int) := by
  obtain ⟨h0, h1⟩ := h
  show Int.tmod (s.currentRaster + 1) (s.length : Int) = _
  exact Int.tmod_eq_emod (by omega) (Int.natCast_nonneg s.length)

theorem currentRaster_showPrevious (s : LayerList) (h : InRange s) :
    s.showPrevious.currentRaster = (s.currentRaster - 1) % (s.length : Int) := by
  have hn : 0 < (s.length : Int) := h.length_pos
  obtain ⟨h0, h1⟩ := h
  show Int.tmod (s.currentRaster - 1 + (s.length : Int)) (s.length : Int) = _
  rw [Int.tmod_eq_emod (by omega) (Int.natCast_nonneg s.length)]
  exact add_len_emod (s.currentRaster - 1) (s.length : Int)

theorem inRange_showNext (s : LayerList) (h : InRange s) : InRange s.showNext := by
  have hn : 0 < (s.length : Int) := h.length_pos
  constructor
  · rw [currentRaster_showNext s h]
    exact Int.emod_nonneg _ (by omega)
  · rw [currentRaster_showNext s h, length_showNext]
    exact Int.emod_lt_of_pos _ hn

theorem inRange_showPrevious (s : LayerList) (h : InRange s) : InRange s.showPrevious := by
  have hn : 0 < (s.length : Int) := h.length_pos
  constructor
  · rw [currentRaster_showPrevious s h]
    exact Int.emod_nonneg _ (by omega)
  · rw [currentRaster_showPrevious s h, length_showPrevious]
    exact Int.emod_lt_of_pos _ hn

theorem inv_showCurrent (s : LayerList) (hlen : s.layers.length = s.length)
    (hr : InRange s) : Inv s.showCurrent := by
  refine ⟨?_, hr, ?_⟩
  · rw [layers_length_showCurrent]; exact hlen
  · show s.showCurrent.layers
        = (List.range s.showCurrent.layers.length).map
            (fun (i : Nat) => decide ((i : Int) = s.showCurrent.currentRaster))
    rw [layers_length_showCurrent, currentRaster_showCurrent]
    rfl

theorem inv_new (layers : List Bool) (urls : List String) (h : 1 ≤ layers.length) :
    Inv (LayerList.new layers urls) := by
  apply inv_showCurrent
  · rfl
  · refine ⟨le_refl 0, ?_⟩
    show (0 : Int) < (layers.length : Int)
    omega

theorem inv_applyOp (s : LayerList) (o : CursorOp) (h : Inv s) : Inv (applyOp s o) := by
  obtain ⟨hlen, hr, _⟩ := h
  cases o with
  | next =>
    show Inv s.showNext
    apply inv_showCurrent
    · exact hlen
    · exact (inRange_showNext s hr).imp (fun h => h) (fun h => h)
  | prev =>
    show Inv s.showPrevious
    apply inv_showCurrent
    · exact hlen
    · exact (inRange_showPrevious s hr).imp (fun h => h) (fun h => h)

theorem inv_applyOps (ops : List CursorOp) (s : LayerList) (h : Inv s) :
    Inv (applyOps s ops) := by
  induction ops generalizing s with
  | nil => exact h
  | cons o rest ih => exact ih (applyOp s o) (inv_applyOp s o h)

theorem visibleAt_of_inv (s : LayerList) (h : Inv s) (i : Nat) (hi : i < s.layers.length) :
    (s.visibleAt i = true ↔ (i : Int) = s.currentRaster) := by
  unfold LayerList.visibleAt
  rw [List.getD_eq_getElem s.layers false hi, List.getElem_of_eq h.2.2 hi,
    List.getElem_map, List.getElem_range, decide_eq_true_eq]

theorem next_iter (k : Nat) :
    ∀ s : LayerList, InRange s →
      (applyOps s (List.replicate k CursorOp.next)).currentRaster
        = (s.currentRaster + (k : Int)) % (s.length : Int) := by
  induction k with
  | zero =>
    intro s h
    rw [List.replicate]
    show s.currentRaster = (s.currentRaster + 0) % (s.length : Int)
    rw [add_zero, Int.emod_eq_of_lt h.1 h.2]
  | succ k ih =>
    intro s h
    rw [List.replicate]
    show (applyOps s.showNext (List.replicate k CursorOp.next)).currentRaster = _
    rw [ih s.showNext (inRange_showNext s h), currentRaster_showNext s h, length_showNext,
      emod_add_cancel]
    push_cast
    ring_nf

theorem prev_iter (k : Nat) :
    ∀ s : LayerList, InRange s →
      (applyOps s (List.replicate k CursorOp.prev)).currentRaster
        = (s.currentRaster - (k : Int)) % (s.length : Int) := by
  induction k with
  | zero =>
    intro s h
    rw [List.replicate]
    show s.currentRaster = (s.currentRaster - 0) % (s.length : Int)
    rw [sub_zero, Int.emod_eq_of_lt h.1 h.2]
  | succ k ih =>
    intro s h
    rw [List.replicate]
    show (applyOps s.showPrevious (List.replicate k CursorOp.prev)).currentRaster = _
    rw [ih s.showPrevious (inRange_showPrevious s h), currentRaster_showPrevious s h,
      length_showPrevious, sub_eq_add_neg ((s.currentRaster - 1) % (s.length : Int)),
      emod_add_cancel]
    push_cast
    ring_nf

/-! ## Claim theorems for the cursor -/

/-- C1: for every cursor built on at least one layer, after construction and
after every sequence of next/previous interactions, the index `currentRaster`
lies in `[0, length)`, the length is unchanged, and a layer is visible
exactly when it sits at the current index (so exactly one layer in range is
visible, all others invisible). -/
theorem cursor_invariant (layers : List Bool) (urls : List String) (ops : List CursorOp)
    (h : 1 ≤ layers.length) :
    0 ≤ (runCursor layers urls ops).currentRaster ∧
    (runCursor layers urls ops).currentRaster < ((runCursor layers urls ops).length : Int) ∧
    (runCursor layers urls ops).length = layers.length ∧
    ∀ i : Nat, i < (runCursor layers urls ops).layers.length →
      ((runCursor layers urls ops).visibleAt i = true ↔
        (i : Int) = (runCursor layers urls ops).currentRaster) := by
  have hinv : Inv (runCursor layers urls ops) := inv_applyOps ops _ (inv_new layers urls h)
  refine ⟨hinv.2.1.1, hinv.2.1.2, ?_, ?_⟩
  · show (applyOps (LayerList.new layers urls) ops).length = layers.length
    rw [length_applyOps]
    rfl
  · intro i hi
    exact visibleAt_of_inv _ hinv i hi

/-- Witness for C1: a three-layer cursor after the clicks next, next,
previous. -/
theorem cursor_invariant_witness :
    1 ≤ ([false, false, false] : List Bool).length ∧
    (0 ≤ (runCursor [false, false, false] ["u0", "u1", "u2"]
            [CursorOp.next, CursorOp.next, CursorOp.prev]).currentRaster ∧
     (runCursor [false, false, false] ["u0", "u1", "u2"]
        [CursorOp.next, CursorOp.next, CursorOp.prev]).currentRaster
       < ((runCursor [false, false, false] ["u0", "u1", "u2"]
            [CursorOp.next, CursorOp.next, CursorOp.prev]).length : Int) ∧
     (runCursor [false, false, false] ["u0", "u1", "u2"]
        [CursorOp.next, CursorOp.next, CursorOp.prev]).length
       = ([false, false, false] : List Bool).length ∧
     ∀ i : Nat, i < (runCursor [false, false, false] ["u0", "u1", "u2"]
            [CursorOp.next, CursorOp.next, CursorOp.prev]).layers.length →
       ((runCursor [false, false, false] ["u0", "u1", "u2"]
            [CursorOp.next, CursorOp.next, CursorOp.prev]).visibleAt i = true ↔
         (i : Int) = (runCursor [false, false, false] ["u0", "u1", "u2"]
            [CursorOp.next, CursorOp.next, CursorOp.prev]).currentRaster)) :=
  ⟨by decide,
   cursor_invariant [false, false, false] ["u0", "u1", "u2"]
     [CursorOp.next, CursorOp.next, CursorOp.prev] (by decide)⟩

/-- C2: from any in-range state, `length` consecutive advances return the
index to its original value, and so do `length` consecutive retreats. -/
theorem cursor_cycle (s : LayerList) (h : InRange s) :
    (applyOps s (List.replicate s.length CursorOp.next)).currentRaster = s.currentRaster ∧
    (applyOps s (List.replicate s.length CursorOp.prev)).currentRaster = s.currentRaster := by
  constructor
  · rw [next_iter s.length s h, add_len_emod]
    exact Int.emod_eq_of_lt h.1 h.2
  · rw [prev_iter s.length s h]
    have e : s.currentRaster - (s.length : Int)
        = s.currentRaster + (s.length : Int) * (-1) := by ring
    rw [e, Int.add_mul_emod_self_left]
    exact Int.emod_eq_of_lt h.1 h.2

/-- Witness for C2 on a freshly constructed three-layer cursor. -/
theorem cursor_cycle_witness :
    InRange (LayerList.new [false, false, false] ["u0", "u1", "u2"]) ∧
    ((applyOps (LayerList.new [false, false, false] ["u0", "u1", "u2"])
        (List.replicate (LayerList.new [false, false, false] ["u0", "u1", "u2"]).length
          CursorOp.next)).currentRaster
      = (LayerList.new [false, false, false] ["u0", "u1", "u2"]).currentRaster ∧
     (applyOps (LayerList.new [false, false, false] ["u0", "u1", "u2"])
        (List.replicate (LayerList.new [false, false, false] ["u0", "u1", "u2"]).length
          CursorOp.prev)).currentRaster
      = (LayerList.new [false, false, false] ["u0", "u1", "u2"]).currentRaster) :=
  ⟨⟨by decide, by decide⟩,
   cursor_cycle (LayerList.new [false, false, false] ["u0", "u1", "u2"])
     ⟨by decide, by decide⟩⟩

/-- C3: from any in-range state, advancing and then retreating leaves the
index unchanged, and so does retreating and then advancing. -/
theorem cursor_inverse (s : LayerList) (h : InRange s) :
    s.showNext.showPrevious.currentRaster = s.currentRaster ∧
    s.showPrevious.showNext.currentRaster = s.currentRaster := by
  constructor
  · rw [currentRaster_showPrevious s.showNext (inRange_showNext s h),
      currentRaster_showNext s h, length_showNext, sub_eq_add_neg, emod_add_cancel]
    have e : s.currentRaster + 1 + (-1) = s.currentRaster := by ring
    rw [e]
    exact Int.emod_eq_of_lt h.1 h.2
  · rw [currentRaster_showNext s.showPrevious (inRange_showPrevious s h),
      currentRaster_showPrevious s h, length_showPrevious, emod_add_cancel]
    have e : s.currentRaster - 1 + 1 = s.currentRaster := by ring
    rw [e]
    exact Int.emod_eq_of_lt h.1 h.2

/-- Witness for C3 on a freshly constructed two-layer cursor. -/
theorem cursor_inverse_witness :
    InRange (LayerList.new [false, false] ["u0", "u1"]) ∧
    ((LayerList.new [false, false] ["u0", "u1"]).showNext.showPrevious.currentRaster
      = (LayerList.new [false, false] ["u0", "u1"]).currentRaster ∧
     (LayerList.new [false, false] ["u0", "u1"]).showPrevious.showNext.currentRaster
      = (LayerList.new [false, false] ["u0", "u1"]).currentRaster) :=
  ⟨⟨by decide, by decide⟩,
   cursor_inverse (LayerList.new [false, false] ["u0", "u1"]) ⟨by decide, by decide⟩⟩

/-- C4 (code behavior at the failing input): the source constructor does not
fail fast on zero layers.  Handing the constructor an empty layer list
returns a constructed cursor with `length = 0`, index `0` and no visible
layer, instead of raising an error before construction as the claim
requires; a subsequent `showNext` computes `(0 + 1) % 0`, which in JS is
`NaN`, silently. -/
theorem zero_layer_constructor_returns :
    (LayerList.new [] []).length = 0 ∧ (LayerList.new [] []).currentRaster = 0 ∧
    (LayerList.new [] []).layers = [] :=
  ⟨rfl, rfl, rfl⟩

/-! ## Color stop lemmas -/

theorem range_map_getD {α : Type} (l : List α) (d : α) :
    (List.range l.length).map (fun i => l.getD i d) = l := by
  apply List.ext_getElem
  · rw [List.length_map, List.length_range]
  · intro n h1 h2
    rw [List.getElem_map, List.getElem_range, List.getD_eq_getElem l d h2]

theorem colormap_length (cmap : String) (n : Nat) (a : Rat) :
    (colormap cmap n a).length = n := by
  rw [colormap, List.length_map, List.length_range]

theorem colormap_getD (cmap : String) (n : Nat) (a : Rat) (i : Nat) :
    (colormap cmap n a).getD i (RGBA.mk cmap i n a) = RGBA.mk cmap i n a := by
  by_cases h : i < n
  · have hi : i < (colormap cmap n a).length := by rw [colormap_length]; exact h
    rw [List.getD_eq_getElem _ _ hi]
    simp [colormap]
  · exact List.getD_eq_default _ _ (by rw [colormap_length]; omega)

theorem getColorStops_length (cmap : String) (levels : List Rat) :
    (getColorStops cmap levels).length = levels.length := by
  rw [getColorStops, List.length_map, List.length_range]

theorem getColorStops_fst (cmap : String) (levels : List Rat) :
    (getColorStops cmap levels).map Prod.fst = levels := by
  show ((List.range levels.length).map _).map Prod.fst = levels
  rw [List.map_map]
  exact range_map_getD levels 0

theorem getColorStops_snd (cmap : String) (levels : List Rat) :
    (getColorStops cmap levels).map Prod.snd = colormap cmap levels.length (0.6 : Rat) := by
  apply List.ext_getElem
  · rw [List.length_map, getColorStops_length, colormap_length]
  · intro n h1 h2
    have hn : n < (colormap cmap levels.length (0.6 : Rat)).length := h2
    simp only [getColorStops, List.map_map, List.getElem_map, List.getElem_range,
      Function.comp_apply]
    rw [List.getD_eq_getElem _ _ hn]

theorem getColorStops_alpha (cmap : String) (levels : List Rat) :
    (getColorStops cmap levels).map (fun p => p.2.alpha)
      = List.replicate levels.length (0.6 : Rat) := by
  apply List.ext_getElem
  · rw [List.length_map, getColorStops_length, List.length_replicate]
  · intro n h1 h2
    simp only [getColorStops, List.map_map, List.getElem_map, List.getElem_range,
      List.getElem_replicate, Function.comp_apply]
    rw [colormap_getD]

theorem drawColorBar_fillAlpha (stops : List (Rat × RGBA)) :
    (drawColorBar stops).map Swatch.fillAlpha = stops.map (fun p => p.2.alpha) := by
  rw [drawColorBar, List.map_map]
  rfl

/-! ## Claim theorems for classification stops -/

/-- C5: for every variable name, the stop list produced by classification has
exactly one `(value, color)` stop per breakpoint, stop `i` pairs breakpoint
`i` with color `i` in order, and the stop values are non-decreasing. -/
theorem classification_stops (v : String) :
    (getColorStops (createColorbar v).cmap (createColorbar v).levels).length
      = (createColorbar v).levels.length ∧
    (getColorStops (createColorbar v).cmap (createColorbar v).levels).map Prod.fst
      = (createColorbar v).levels ∧
    (getColorStops (createColorbar v).cmap (createColorbar v).levels).map Prod.snd
      = colormap (createColorbar v).cmap (createColorbar v).levels.length (0.6 : Rat) ∧
    List.Pairwise (fun a b => a ≤ b)
      ((getColorStops (createColorbar v).cmap (createColorbar v).levels).map Prod.fst) := by
  refine ⟨getColorStops_length _ _, getColorStops_fst _ _, getColorStops_snd _ _, ?_⟩
  rw [getColorStops_fst]
  unfold createColorbar
  split_ifs <;> norm_num [List.pairwise_cons]

/-- C8 (counterexample to the claim as stated): for the default variable
`"xyz"` every one of the ten legend swatches is drawn with fill alpha `0.6`
taken from its color tuple, not at full alpha `1`. -/
theorem legend_alpha_counterexample :
    (drawColorBar (getColorStops (createColorbar "xyz").cmap
        (createColorbar "xyz").levels)).map Swatch.fillAlpha
      = List.replicate 10 (0.6 : Rat) ∧ (0.6 : Rat) ≠ 1 :=
  ⟨rfl, by norm_num⟩

/-- C8 (amended): for every variable, the classification colors carry fixed
alpha `0.6`, and the legend swatches are drawn at that same `0.6` alpha taken
from the same color tuples (the fourth component of the tuple), not at full
alpha. -/
theorem classification_and_legend_alpha (v : String) :
    ((getColorStops (createColorbar v).cmap (createColorbar v).levels).map
        (fun p => p.2.alpha))
      = List.replicate (createColorbar v).levels.length (0.6 : Rat) ∧
    ((drawColorBar (getColorStops (createColorbar v).cmap
        (createColorbar v).levels)).map Swatch.fillAlpha)
      = List.replicate (createColorbar v).levels.length (0.6 : Rat) :=
  ⟨getColorStops_alpha _ _, by rw [drawColorBar_fillAlpha, getColorStops_alpha]⟩

/-! ## Grouping lemmas -/

theorem lookupGroup_addToGroup_same (g : List (String × List Asset)) (v : String) (a : Asset) :
    lookupGroup (addToGroup g v a) v = lookupGroup g v ++ [a] := by
  induction g with
  | nil => simp [addToGroup, lookupGroup]
  | cons p rest ih =>
    obtain ⟨w, l⟩ := p
    by_cases h : w = v
    · subst h
      simp [addToGroup, lookupGroup]
    · simp [addToGroup, lookupGroup, h, ih]

theorem lookupGroup_addToGroup_ne (g : List (String × List Asset)) (v : String) (a : Asset)
    (w : String) (hw : w ≠ v) :
    lookupGroup (addToGroup g v a) w = lookupGroup g w := by
  induction g with
  | nil => simp [addToGroup, lookupGroup, Ne.symm hw]
  | cons p rest ih =>
    obtain ⟨x, l⟩ := p
    by_cases hx : x = v
    · subst hx
      simp [addToGroup, lookupGroup, Ne.symm hw]
    · by_cases hxw : x = w
      · subst hxw
        simp [addToGroup, lookupGroup, hx]
      · simp [addToGroup, lookupGroup, hx, hxw, ih]

theorem lookupGroup_foldl (assets : List (String × Asset)) (g : List (String × List Asset))
    (v : String) :
    lookupGroup (assets.foldl groupStep g) v
      = lookupGroup g v
          ++ (assets.filter (fun p => decide (p.2.key = some v))).map (fun p => p.2) := by
  induction assets generalizing g with
  | nil => simp
  | cons p rest ih =>
    rw [List.foldl_cons, ih]
    cases hk : p.2.key with
    | none => simp [groupStep, hk]
    | some w =>
      by_cases hw : w = v
      · subst hw
        simp [groupStep, hk, lookupGroup_addToGroup_same]
      · simp [groupStep, hk, hw, lookupGroup_addToGroup_ne _ _ _ _ (fun h => hw h.symm)]

theorem mem_map_fst_addToGroup (g : List (String × List Asset)) (v : String) (a : Asset)
    (w : String) :
    w ∈ (addToGroup g v a).map (fun p => p.1)
      ↔ (w ∈ g.map (fun p => p.1) ∨ w = v) := by
  induction g with
  | nil => simp [addToGroup]
  | cons p rest ih =>
    obtain ⟨x, l⟩ := p
    by_cases hx : x = v
    · subst hx
      simp [addToGroup]
      tauto
    · simp [addToGroup, hx, ih]
      tauto

theorem mem_selector_foldl (assets : List (String × Asset)) (g : List (String × List Asset))
    (w : String) :
    w ∈ (assets.foldl groupStep g).map (fun p => p.1)
      ↔ (w ∈ g.map (fun p => p.1) ∨ ∃ p, p ∈ assets ∧ p.2.key = some w) := by
  induction assets generalizing g with
  | nil => simp
  | cons q rest ih =>
    rw [List.foldl_cons, ih]
    cases hk : q.2.key with
    | none =>
      simp only [groupStep, hk, List.mem_cons]
      constructor
      · rintro (h | ⟨p, hp, hkey⟩)
        · exact Or.inl h
        · exact Or.inr ⟨p, Or.inr hp, hkey⟩
      · rintro (h | ⟨p, (rfl | hp), hkey⟩)
        · exact Or.inl h
        · rw [hk] at hkey
          exact Option.noConfusion hkey
        · exact Or.inr ⟨p, hp, hkey⟩
    | some u =>
      simp only [groupStep, hk, mem_map_fst_addToGroup, List.mem_cons]
      constructor
      · rintro ((h | rfl) | ⟨p, hp, hkey⟩)
        · exact Or.inl h
        · exact Or.inr ⟨q, Or.inl rfl, hk⟩
        · exact Or.inr ⟨p, Or.inr hp, hkey⟩
      · rintro (h | ⟨p, (rfl | hp), hkey⟩)
        · exact Or.inl (Or.inl h)
        · rw [hk] at hkey
          exact Or.inl (Or.inr (Option.some.inj hkey).symm)
        · exact Or.inr ⟨p, hp, hkey⟩

/-! ## Claim theorem for grouping -/

/-- C7: for every asset map, each variable group holds exactly the keyed
assets of that variable in their order of appearance in the asset map, an
asset without a `key` field belongs to no group, and a variable name appears
among the selector options exactly when some asset carries it as `key`. -/
theorem grouping_spec (assets : List (String × Asset)) (v : String) :
    lookupGroup (getAssetsFromItem assets) v
      = (assets.filter (fun p => decide (p.2.key = some v))).map (fun p => p.2) ∧
    (∀ a : Asset, a.key = none → a ∉ lookupGroup (getAssetsFromItem assets) v) ∧
    (v ∈ createVariableSelector (getAssetsFromItem assets)
      ↔ ∃ p, p ∈ assets ∧ p.2.key = some v) := by
  have h1 : lookupGroup (getAssetsFromItem assets) v
      = (assets.filter (fun p => decide (p.2.key = some v))).map (fun p => p.2) := by
    have h := lookupGroup_foldl assets [] v
    rw [getAssetsFromItem]
    rw [h]
    simp [lookupGroup]
  refine ⟨h1, ?_, ?_⟩
  · intro a hk hmem
    rw [h1] at hmem
    obtain ⟨p, hp, hpa⟩ := List.mem_map.mp hmem
    have hcond := (List.mem_filter.mp hp).2
    rw [decide_eq_true_eq] at hcond
    rw [hpa, hk] at hcond
    exact Option.noConfusion hcond
  · show v ∈ (getAssetsFromItem assets).map (fun p => p.1) ↔ _
    have h := mem_selector_foldl assets [] v
    rw [getAssetsFromItem]
    rw [h]
    simp

/-- Witness for C7 on a concrete four-asset map with one keyless asset: the
`"ash"` group holds exactly the two `"ash"` assets in order, and the keyless
asset is in no group. -/
theorem grouping_spec_witness :
    lookupGroup (getAssetsFromItem sampleAssets) "ash"
      = [Asset.mk "u1" (some "ash"), Asset.mk "u3" (some "ash")] ∧
    Asset.mk "u2" none ∉ lookupGroup (getAssetsFromItem sampleAssets) "ash" :=
  ⟨((grouping_spec sampleAssets "ash").1).trans (by decide),
   (grouping_spec sampleAssets "ash").2.1 (Asset.mk "u2" none) rfl⟩

end StacViewer
